import Mathlib

/-!
# kafqa: producer pool, event drain and stats dispatch

A shallow embedding of `producer/producer.go`, `producer/handler.go` and
`reporter/librdkafka.go`.  Goroutine bodies are embedded as functions that
return the sequence of externally visible operations they perform (channel
sends, calls on injected interfaces, log lines, wait-group signals); injected
interfaces (`msgCreator`, `store.MsgStore`, `serde.Decoder`, the kafka client)
are parameters with explicit state passing.  The codec of package `serde`, of
which only the test is among the sources, is modelled as the gob encoding the
test names.
-/

namespace Kafqa

/-! ## Shared data -/

/-- One octet of a Go `[]byte`. -/
abbrev Byte := Fin 256

/-- Go `[]byte`. -/
abbrev ByteSlice := List Byte

/-- Go `error` values are represented by their text; `none` is `nil`. -/
abbrev GoError := Option String

/-- The `kafka.TopicPartition` of the client library, with the fields the sources read. -/
structure TopicPartition where
  Topic : Option String
  Partition : Int
  Offset : Int
  Error : GoError
deriving DecidableEq, Repr

/-- The `kafka.Message` of the client library, with the fields the sources read. -/
structure KafkaMessage where
  TopicPartition : TopicPartition
  Value : ByteSlice
deriving DecidableEq, Repr

/-- The client library constant `kafka.PartitionAny`. -/
def PartitionAny : Int := -1

/-! ## producer/producer.go -/

/-- The fields of `config.Producer` read by the producer package. `TotalMessages`
is compared with a `uint64` counter in `Run`, `Concurrency` is passed to
`sync.WaitGroup.Add` and compared with an `int` counter. -/
structure ProducerConfig where
  KafkaBrokers : String
  Topic : String
  TotalMessages : Nat
  Concurrency : Int
  FlushTimeoutMs : Int
deriving DecidableEq, Repr

/-- The `msgCreator` interface: `NewBytes() ([]byte, error)` over a creator state `κ`. -/
structure MsgCreator (κ : Type) where
  NewBytes : κ → (ByteSlice × GoError) × κ

/-- Operations performed by the goroutine that executes `Producer.Run`. -/
inductive FeederOp where
  | goRunProducers
  | wgAdd (delta : Int)
  | debugf (text : String)
  | send (m : ByteSlice)
  | close
deriving DecidableEq, Repr

/-- The value built by `producer.New`: the kafka client, the configuration, the
capacity of the channel `messages` and the message creator. -/
structure Producer (P κ : Type) where
  KafkaProducer : P
  config : ProducerConfig
  messagesCap : Nat
  msgCreator : MsgCreator κ

/-- The function `producer.New`; `newKafkaProducer` is `kafka.NewProducer` applied to a
`kafka.ConfigMap` given as its list of entries. The result is the Go pair
`(*Producer, error)`. -/
def New {P κ : Type} (newKafkaProducer : List (String × String) → Except String P)
    (prodCfg : ProducerConfig) (mc : MsgCreator κ) : Option (Producer P κ) × GoError :=
  match newKafkaProducer [("bootstrap.servers", prodCfg.KafkaBrokers)] with
  | Except.error err => (none, some err)
  | Except.ok p =>
    (some { KafkaProducer := p, config := prodCfg, messagesCap := 1000, msgCreator := mc }, none)

/-- How an execution of `Producer.Run` ends: it returns, it panics, it stays blocked on a
channel send for ever, or (an artefact of the embedding) the loop has not finished
within the iterations allotted. Each carries the operations performed. -/
inductive RunOutcome (κ : Type) where
  | finished (s : κ) (ops : List FeederOp)
  | panicked (ops : List FeederOp)
  | blocked (s : κ) (ops : List FeederOp)
  | outOfFuel
deriving DecidableEq, Repr

/-- The `uint64` successor `i++`. -/
def incr64 (i : Nat) : Nat := (i + 1) % 2 ^ 64

/-- The loop `for i = 0; i < p.config.TotalMessages; i++` of `Producer.Run`, from
counter value `i`, with `queued` sends completed, creator state `s` and the operations
`acc` performed so far. When workers exist (`receivers`) they keep receiving, since
`Produce` does not block, so every send completes; without workers nothing ever
receives and the send that finds the buffer of capacity `cap` full blocks for ever. -/
def feedLoop {κ : Type} (mc : MsgCreator κ) (total : Nat) (receivers : Bool) (cap : Nat) :
    Nat → Nat → Nat → κ → List FeederOp → RunOutcome κ
  | 0, i, _, s, acc => if i < total then RunOutcome.outOfFuel else RunOutcome.finished s acc
  | fuel + 1, i, queued, s, acc =>
    if i < total then
      let r := mc.NewBytes s
      if !receivers && decide (cap ≤ queued) then RunOutcome.blocked r.2 acc
      else
        feedLoop mc total receivers cap fuel (incr64 i) (queued + 1) r.2
          (acc ++ [FeederOp.send r.1.1])
    else RunOutcome.finished s acc

/-- The counter of a fresh `sync.WaitGroup` after `Add(delta)`: `Add` shifts `delta`
into the upper half of a 64-bit state word and reads the counter back as an `int32`,
so the counter is the low 32 bits of `delta` taken as a signed number. -/
def wgCounter (delta : Int) : Int :=
  if delta % 2 ^ 32 < 2 ^ 31 then delta % 2 ^ 32 else delta % 2 ^ 32 - 2 ^ 32

/-- The method `Producer.Run`: spawn `runProducers` (which starts `Concurrency` workers,
none when that is not positive), register the workers with the wait group
(`sync.WaitGroup.Add` panics when its counter becomes negative), feed the queue,
close it. -/
def Run {P κ : Type} (p : Producer P κ) (s : κ) : RunOutcome κ :=
  if wgCounter p.config.Concurrency < 0 then
    RunOutcome.panicked [FeederOp.goRunProducers, FeederOp.wgAdd p.config.Concurrency]
  else
    match feedLoop p.msgCreator p.config.TotalMessages (decide (0 < p.config.Concurrency))
        p.messagesCap p.config.TotalMessages 0 0 s
        [FeederOp.goRunProducers, FeederOp.wgAdd p.config.Concurrency,
         FeederOp.debugf "started producing to chan...."] with
    | RunOutcome.finished s1 ops =>
      RunOutcome.finished s1
        (ops ++ [FeederOp.close, FeederOp.debugf "produced all messages."])
    | other => other

/-- The operations on the channel `p.messages` among a feeder's operations. -/
def queueOps : List FeederOp → List FeederOp
  | [] => []
  | FeederOp.send m :: rest => FeederOp.send m :: queueOps rest
  | FeederOp.close :: rest => FeederOp.close :: queueOps rest
  | _ :: rest => queueOps rest

/-- The creator state after `i` calls of `NewBytes`. -/
def creatorState {κ : Type} (mc : MsgCreator κ) (s : κ) : Nat → κ
  | 0 => s
  | i + 1 => (mc.NewBytes (creatorState mc s i)).2

/-- The bytes returned by call number `i` (from 0) of `NewBytes`. -/
def creatorOutput {κ : Type} (mc : MsgCreator κ) (s : κ) (i : Nat) : ByteSlice :=
  (mc.NewBytes (creatorState mc s i)).1.1

/-- Operations performed by one `ProduceWorker` goroutine. -/
inductive WorkerOp where
  | produce (m : KafkaMessage)
  | errorf (text : String)
  | wgDone
deriving DecidableEq, Repr

/-- The part of `*kafka.Producer` used by a worker: `Produce(msg, nil) error` over a
client state `β`. -/
structure KafkaClient (β : Type) where
  Produce : β → KafkaMessage → GoError × β

/-- The body of `for msg := range p.messages` in `ProduceWorker`, on the messages
`msgs` this worker receives before the channel is closed and drained. -/
def workerLoop {β : Type} (client : KafkaClient β) (config : ProducerConfig) :
    List ByteSlice → β → β × List WorkerOp
  | [], b => (b, [])
  | msg :: rest, b =>
    let kafkaMsg : KafkaMessage :=
      { TopicPartition :=
          { Topic := some config.Topic, Partition := PartitionAny, Offset := 0, Error := none },
        Value := msg }
    let r := client.Produce b kafkaMsg
    let logged : List WorkerOp :=
      match r.1 with
      | some _ => [WorkerOp.errorf "Error producing message to kafka: %v"]
      | none => []
    let t := workerLoop client config rest r.2
    (t.1, WorkerOp.produce kafkaMsg :: logged ++ t.2)

/-- The method `Producer.ProduceWorker`; the deferred `p.wg.Done()` runs last. -/
def ProduceWorker {β : Type} (client : KafkaClient β) (config : ProducerConfig)
    (msgs : List ByteSlice) (b : β) : β × List WorkerOp :=
  let t := workerLoop client config msgs b
  (t.1, t.2 ++ [WorkerOp.wgDone])

/-- The `Produce` calls among a worker's operations. -/
def produceCalls : List WorkerOp → List KafkaMessage
  | [] => []
  | WorkerOp.produce m :: rest => m :: produceCalls rest
  | _ :: rest => produceCalls rest

/-- The messages sent on `p.messages` among a feeder's operations, in order. -/
def sentMessages : List FeederOp → List ByteSlice
  | [] => []
  | FeederOp.send m :: rest => m :: sentMessages rest
  | _ :: rest => sentMessages rest

/-! ## creator.Message and store.Trace -/

/-- Modelled from the spec: the struct `creator.Message`, whose declaration is not among
the sources. The fields are those of the spec's data model (section 3: ID, Payload,
ProducedAt) and `Sequence`, the `uint64` field the codec tests set; `ID` is read as a
string by `traceID` in `main.go`. Go strings are byte sequences, `ProducedAt` is taken
as a signed 64-bit count of nanoseconds. -/
structure Message where
  Sequence : Nat
  ID : ByteSlice
  Payload : ByteSlice
  ProducedAt : Int
deriving DecidableEq, Repr

/-- The zero value of `creator.Message`. -/
def Message.zero : Message := { Sequence := 0, ID := [], Payload := [], ProducedAt := 0 }

/-- The fields of `store.Trace` set by the event handler. -/
structure Trace where
  Message : Message
  TopicPartition : TopicPartition
deriving DecidableEq, Repr

/-! ## serde: the codec exercised by kafqa_parser_test.go -/

/-- Modelled from the spec: the minimal big-endian octets of `n`, at most `k` of them
(the gob encoding of unsigned integers above 127 sends these). -/
def bigEndian : Nat → Nat → ByteSlice
  | 0, _ => []
  | k + 1, n =>
    if n = 0 then [] else bigEndian k (n / 256) ++ [⟨n % 256, Nat.mod_lt _ (by decide)⟩]

/-- Modelled from the spec: the number a big-endian octet sequence stands for. -/
def fromBigEndian (bs : ByteSlice) : Nat :=
  bs.foldl (fun acc b => acc * 256 + b.val) 0

/-- Modelled from the spec: gob encoding of a `uint64`: one octet when at most 127,
otherwise the negated octet count followed by the minimal big-endian octets. -/
def encodeUint (x : Nat) : ByteSlice :=
  if x ≤ 127 then [⟨x % 256, Nat.mod_lt _ (by decide)⟩]
  else
    ⟨(256 - (bigEndian 8 x).length) % 256, Nat.mod_lt _ (by decide)⟩ :: bigEndian 8 x

/-- Modelled from the spec: gob decoding of a `uint64` from the front of the input,
returning the value and the remaining input; `none` is a decoding error. -/
def decodeUint : ByteSlice → Option (Nat × ByteSlice)
  | [] => none
  | b :: rest =>
    if b.val ≤ 127 then some (b.val, rest)
    else if 8 < 256 - b.val then none
    else if rest.length < 256 - b.val then none
    else some (fromBigEndian (rest.take (256 - b.val)), rest.drop (256 - b.val))

/-- Modelled from the spec: gob encoding of an `int64`: the sign goes to bit 0 of an
unsigned integer, negative values being complemented. -/
def encodeInt (i : Int) : ByteSlice :=
  encodeUint (if i < 0 then (2 * (-i - 1) + 1).toNat else (2 * i).toNat)

/-- Modelled from the spec: gob decoding of an `int64`. -/
def decodeInt (bs : ByteSlice) : Option (Int × ByteSlice) :=
  match decodeUint bs with
  | none => none
  | some (x, rest) =>
    some (if x % 2 = 1 then -((x / 2 : Nat) : Int) - 1 else ((x / 2 : Nat) : Int), rest)

/-- Modelled from the spec: gob encoding of a string or byte slice: length, then octets. -/
def encodeByteSlice (bs : ByteSlice) : ByteSlice :=
  encodeUint bs.length ++ bs

/-- Modelled from the spec: gob decoding of a string or byte slice. -/
def decodeByteSlice (bs : ByteSlice) : Option (ByteSlice × ByteSlice) :=
  match decodeUint bs with
  | none => none
  | some (n, rest) => if rest.length < n then none else some (rest.take n, rest.drop n)

/-- Modelled from the spec: one step of the gob struct encoder on the pair (number of
the last field sent, output so far): a field with the zero value is not sent, any other
is sent as the distance from the last field sent followed by its value. -/
def sendField (st : Int × ByteSlice) (fieldnum : Int) (isZero : Bool) (value : ByteSlice) :
    Int × ByteSlice :=
  if isZero then st else (fieldnum, st.2 ++ encodeUint (fieldnum - st.1).toNat ++ value)

/-- Modelled from the spec: gob encoding of a `creator.Message` value: its non-zero
fields in declaration order, then the terminating zero. -/
def encodeStruct (m : Message) : ByteSlice :=
  let s0 : Int × ByteSlice := (-1, [])
  let s1 := sendField s0 0 (decide (m.Sequence = 0)) (encodeUint m.Sequence)
  let s2 := sendField s1 1 m.ID.isEmpty (encodeByteSlice m.ID)
  let s3 := sendField s2 2 m.Payload.isEmpty (encodeByteSlice m.Payload)
  let s4 := sendField s3 3 (decide (m.ProducedAt = 0)) (encodeInt m.ProducedAt)
  s4.2 ++ encodeUint 0

/-- Modelled from the spec: gob decoding of the fields of a `creator.Message` into
`msg`, `fieldnum` being the number of the last field read. Field numbers grow strictly
and are at most 3, so five rounds always suffice; `none` is a decoding error. -/
def decodeFields : Nat → Int → Message → ByteSlice → Option Message
  | 0, _, _, _ => none
  | fuel + 1, fieldnum, msg, bs =>
    match decodeUint bs with
    | none => none
    | some (delta, rest) =>
      if delta = 0 then (if rest.isEmpty then some msg else none)
      else if fieldnum + delta = 0 then
        match decodeUint rest with
        | none => none
        | some (v, r) => decodeFields fuel 0 { msg with Sequence := v } r
      else if fieldnum + delta = 1 then
        match decodeByteSlice rest with
        | none => none
        | some (v, r) => decodeFields fuel 1 { msg with ID := v } r
      else if fieldnum + delta = 2 then
        match decodeByteSlice rest with
        | none => none
        | some (v, r) => decodeFields fuel 2 { msg with Payload := v } r
      else if fieldnum + delta = 3 then
        match decodeInt rest with
        | none => none
        | some (v, r) => decodeFields fuel 3 { msg with ProducedAt := v } r
      else none

/-- Modelled from the spec: the type id under which the value is sent (the first id gob
grants to a user type). -/
def messageTypeId : Int := 65

/-- Modelled from the spec: `KafqaParser.Bytes`, the `encode` of the codec contract
(spec section 6), not among the sources. Following the test names it is the gob
encoding of the message: the byte count of the value message, the type id, the struct
value. The preceding type-definition message, constant for the fixed type, is left
out. The result is the Go pair of bytes and error. -/
def KafqaParser.Bytes (m : Message) : ByteSlice × GoError :=
  ((encodeUint (encodeInt messageTypeId ++ encodeStruct m).length
      ++ (encodeInt messageTypeId ++ encodeStruct m)), none)

/-- Modelled from the spec: `KafqaParser.FromBytes`, the `decode` of the codec contract
(spec section 6), not among the sources: the inverse reading of `KafqaParser.Bytes`.
A failure returns the zero message and an error, never partial data. -/
def KafqaParser.FromBytes (data : ByteSlice) : Message × GoError :=
  match decodeUint data with
  | none => (Message.zero, some "EOF")
  | some (n, rest) =>
    if rest.length < n then (Message.zero, some "unexpected EOF")
    else
      match decodeInt (rest.take n) with
      | none => (Message.zero, some "gob: bad type id")
      | some (id, fields) =>
        if id ≠ messageTypeId then (Message.zero, some "gob: type mismatch")
        else
          match decodeFields 5 (-1) Message.zero fields with
          | none => (Message.zero, some "gob: bad data")
          | some m => (m, none)

/-- The values a `creator.Message` can hold: `Sequence` is a `uint64`, `ProducedAt` an
`int64`, and the lengths of `ID` and `Payload` are lengths of Go slices. -/
def Message.WellTyped (m : Message) : Prop :=
  m.Sequence < 2 ^ 64 ∧ m.ID.length < 2 ^ 62 ∧ m.Payload.length < 2 ^ 62
    ∧ -(2 : Int) ^ 63 ≤ m.ProducedAt ∧ m.ProducedAt < (2 : Int) ^ 63

/-! ## producer/handler.go -/

/-- The dynamic types of `kafka.Event` distinguished by the type switch in `Handle`:
`*kafka.Stats`, `*kafka.Message`, and every other event (named by a description). -/
inductive Event where
  | stats (statsJSON : String)
  | message (ev : KafkaMessage)
  | other (description : String)
deriving DecidableEq, Repr

/-- Operations performed by the goroutine that executes `Handler.Handle`:
`handleStats j` is the call `h.librdStatsHandler.HandleStats(j)` as written in
`handler.go`, `track t` the call `h.msgStore.Track(t)`, the next four are the log
lines, `wgDone` is `h.wg.Done()`. -/
inductive HandlerOp where
  | handleStats (statJSON : String)
  | track (t : Trace)
  | debugDeliveryFailed (tp : TopicPartition)
  | errorDecodingFailed (tp : TopicPartition)
  | errorTrackFailed (tp : TopicPartition)
  | debugUnknownEvent (e : Event)
  | wgDone
deriving DecidableEq, Repr

/-- The tags of `reporter.LibrdTags` set in `main.go`. -/
structure LibrdTags where
  ClusterName : String
  Ack : String
  Topic : String
deriving DecidableEq, Repr

/-- The struct `Handler` over a store state `σ`: `Track` is `store.MsgStore.Track`,
`FromBytes` is `serde.Decoder.FromBytes` returning the Go pair `(creator.Message, error)`,
`librdTags` are the tags the stats handler was built from. The channel `events` and the
wait group are the stream argument and the `wgDone` operation of `Handle`. -/
structure Handler (σ : Type) where
  Track : σ → Trace → GoError × σ
  FromBytes : ByteSlice → Message × GoError
  librdTags : LibrdTags
  librdStatsEnabled : Bool

/-- The constructor `NewHandler`. -/
def NewHandler {σ : Type} (Track : σ → Trace → GoError × σ)
    (FromBytes : ByteSlice → Message × GoError) (librdTags : LibrdTags)
    (librdStatsEnabled : Bool) : Handler σ :=
  { Track := Track, FromBytes := FromBytes, librdTags := librdTags,
    librdStatsEnabled := librdStatsEnabled }

/-- The method `Handler.handleKafkaMessage` from store state `st`. -/
def handleKafkaMessage {σ : Type} (h : Handler σ) (st : σ) (ev : KafkaMessage) :
    σ × List HandlerOp :=
  match ev.TopicPartition.Error with
  | some _ => (st, [HandlerOp.debugDeliveryFailed ev.TopicPartition])
  | none =>
    let decoded := h.FromBytes ev.Value
    let logDecode : List HandlerOp :=
      match decoded.2 with
      | some _ => [HandlerOp.errorDecodingFailed ev.TopicPartition]
      | none => []
    let trace : Trace := { Message := decoded.1, TopicPartition := ev.TopicPartition }
    let tracked := h.Track st trace
    let logTrack : List HandlerOp :=
      match tracked.1 with
      | some _ => [HandlerOp.errorTrackFailed ev.TopicPartition]
      | none => []
    (tracked.2, logDecode ++ [HandlerOp.track trace] ++ logTrack)

/-- One iteration of the loop in `Handle`: the type switch on the event `e`;
`str` is the method `String()` of `kafka.Event`. -/
def handleEvent {σ : Type} (h : Handler σ) (str : Event → String) (st : σ) (e : Event) :
    σ × List HandlerOp :=
  match e with
  | Event.stats _ =>
    if h.librdStatsEnabled then (st, [HandlerOp.handleStats (str e)]) else (st, [])
  | Event.message ev => handleKafkaMessage h st ev
  | Event.other _ => (st, [HandlerOp.debugUnknownEvent e])

/-- The loop `for e := range h.events` on the events delivered before the stream closes. -/
def handleLoop {σ : Type} (h : Handler σ) (str : Event → String) :
    List Event → σ → σ × List HandlerOp
  | [], st => (st, [])
  | e :: rest, st =>
    let r := handleEvent h str st e
    let t := handleLoop h str rest r.1
    (t.1, r.2 ++ t.2)

/-- The method `Handler.Handle`; the deferred `h.wg.Done()` runs last. -/
def Handle {σ : Type} (h : Handler σ) (str : Event → String) (events : List Event) (st : σ) :
    σ × List HandlerOp :=
  let t := handleLoop h str events st
  (t.1, t.2 ++ [HandlerOp.wgDone])

/-- The traces passed to `Track` among a handler's operations, in order. -/
def trackCalls : List HandlerOp → List Trace
  | [] => []
  | HandlerOp.track t :: rest => t :: trackCalls rest
  | _ :: rest => trackCalls rest

/-- The arguments of `HandleStats` among a handler's operations, in order. -/
def statsCalls : List HandlerOp → List String
  | [] => []
  | HandlerOp.handleStats j :: rest => j :: statsCalls rest
  | _ :: rest => statsCalls rest

/-- The calls on the trace store and on the stats handler among a handler's operations. -/
def collaboratorCalls : List HandlerOp → List HandlerOp
  | [] => []
  | HandlerOp.track t :: rest => HandlerOp.track t :: collaboratorCalls rest
  | HandlerOp.handleStats j :: rest => HandlerOp.handleStats j :: collaboratorCalls rest
  | _ :: rest => collaboratorCalls rest

/-- The string forms of the statistics events of a stream, in stream order. -/
def statsStrings (str : Event → String) : List Event → List String
  | [] => []
  | Event.stats j :: rest => str (Event.stats j) :: statsStrings str rest
  | _ :: rest => statsStrings str rest

/-- Whether an event is a delivery confirmation or a statistics event. -/
def isKnownEvent : Event → Bool
  | Event.stats _ => true
  | Event.message _ => true
  | Event.other _ => false

/-! ## reporter/librdkafka.go -/

/-- A Go `map[string][]string` as its list of entries; `range` visits every entry once,
in an order the language leaves unspecified. -/
abbrev StatNames := List (String × List String)

/-- The struct `LibrdKafkaStatsHandler`. -/
structure LibrdKafkaStatsHandler where
  counters : StatNames
  gauges : StatNames
deriving DecidableEq, Repr

/-- The calls `GetStats` can make: `TopLevelStats` and `BrokersStats`, each with the
arguments `(stats, statsJSON, statType, topic)`. -/
inductive StatsDispatch where
  | TopLevelStats (stats : List String) (statsJSON statType topic : String)
  | BrokersStats (stats : List String) (statsJSON statType topic : String)
deriving DecidableEq, Repr

/-- The function `GetStats`: the switch on `level`, as the calls it makes. -/
def GetStats (stats : List String) (statsJSON level statType topic : String) :
    List StatsDispatch :=
  if level = "top-level" then [StatsDispatch.TopLevelStats stats statsJSON statType topic]
  else if level = "brokers" then [StatsDispatch.BrokersStats stats statsJSON statType topic]
  else []

/-- The function `defaultCounters`. -/
def defaultCounters : StatNames :=
  [("top-level", ["tx", "rx", "txmsgs", "rxmsgs"]),
   ("brokers", ["tx", "rx"])]

/-- The function `defaultGauges`. -/
def defaultGauges : StatNames :=
  [("top-level", ["msg_cnt", "msg_size"]),
   ("brokers", ["outbuf_msg_cnt", "int_latency.p99", "int_latency.avg",
      "outbuf_latency.p99", "outbuf_latency.avg", "throttle.avg", "throttle.p99",
      "rtt.avg", "rtt.p99"])]

/-- The function `NewlibrdKafkaStat`. -/
def NewlibrdKafkaStat : LibrdKafkaStatsHandler :=
  { counters := defaultCounters, gauges := defaultGauges }

/-- The method `HandleStats`, as the calls it makes in order. `rangeCounters` and
`rangeGauges` give the order in which `range` visits the entries of each map. -/
def HandleStats (stats : LibrdKafkaStatsHandler) (rangeCounters rangeGauges : StatNames → StatNames)
    (statJSON topic : String) : List StatsDispatch :=
  (rangeCounters stats.counters).flatMap
      (fun kv => GetStats kv.2 statJSON kv.1 "counter" topic)
    ++ (rangeGauges stats.gauges).flatMap
      (fun kv => GetStats kv.2 statJSON kv.1 "gauge" topic)

/-! ### Sample inputs -/

/-- A creator whose call number `i` returns the one-byte message `[i mod 256]`. -/
def countingCreator : MsgCreator Nat :=
  { NewBytes := fun i => (([Fin.ofNat i], none), i + 1) }

/-- A producer configuration with target count `n` and the given concurrency. -/
def sampleConfig (n : Nat) (c : Int) : ProducerConfig :=
  { KafkaBrokers := "localhost:9092", Topic := "kafqa", TotalMessages := n,
    Concurrency := c, FlushTimeoutMs := 2000 }

/-- The producer `producer.New` builds around the counting creator, target count `n`,
concurrency `c`. -/
def sampleProducer (n : Nat) (c : Int) : Producer Unit Nat :=
  { KafkaProducer := (), config := sampleConfig n c, messagesCap := 1000,
    msgCreator := countingCreator }

/-- A `kafka.NewProducer` that succeeds on every configuration. -/
def reachableBroker : List (String × String) → Except String Unit :=
  fun _ => Except.ok ()

/-- A client whose `Produce` fails on every odd-numbered call. -/
def flakyClient : KafkaClient Nat :=
  { Produce := fun b _ => (if b % 2 = 1 then some "queue full" else none, b + 1) }

/-- A store that keeps every tracked trace, newest first, and never fails. -/
def listStoreTrack : List Trace → Trace → GoError × List Trace :=
  fun st t => (none, t :: st)

/-- A decoder that rejects every payload, returning the zero message and an error. -/
def rejectingDecoder : ByteSlice → Message × GoError :=
  fun _ => (Message.zero, some "unexpected EOF")

/-- A decoder that accepts every payload as the message with that payload. -/
def acceptingDecoder : ByteSlice → Message × GoError :=
  fun b => ({ Message.zero with Payload := b }, none)

/-- Sample stats tags. -/
def sampleTags : LibrdTags := { ClusterName := "local", Ack := "1", Topic := "kafqa" }

/-- A delivery confirmation whose destination carries an error. -/
def failedDelivery : KafkaMessage :=
  { TopicPartition := { Topic := some "kafqa", Partition := 0, Offset := 0,
                        Error := some "Local: Message timed out" },
    Value := [1, 2] }

/-- A delivery confirmation without destination error. -/
def goodDelivery : KafkaMessage :=
  { TopicPartition := { Topic := some "kafqa", Partition := 0, Offset := 7, Error := none },
    Value := [1, 2] }

/-- The `String()` of the sample events: the JSON of a statistics event. -/
def sampleString : Event → String
  | Event.stats j => j
  | Event.message _ => "kafqa[0]@7"
  | Event.other d => d

/-! ## Theorems: producer/producer.go -/

theorem queueOps_append (xs ys : List FeederOp) :
    queueOps (xs ++ ys) = queueOps xs ++ queueOps ys := by
  induction xs with
  | nil => rfl
  | cons x xs ih => cases x <;> simp [queueOps, ih]

theorem queueOps_sends (f : Nat → ByteSlice) (l : List Nat) :
    queueOps (l.map (fun j => FeederOp.send (f j))) = l.map (fun j => FeederOp.send (f j)) := by
  induction l with
  | nil => rfl
  | cons x xs ih => simp [queueOps, ih]

theorem incr64_of_lt {i total : Nat} (hi : i < total) (ht : total < 2 ^ 64) :
    incr64 i = i + 1 := by
  unfold incr64
  exact Nat.mod_eq_of_lt (by omega)

theorem sentMessages_append (xs ys : List FeederOp) :
    sentMessages (xs ++ ys) = sentMessages xs ++ sentMessages ys := by
  induction xs with
  | nil => rfl
  | cons x xs ih => cases x <;> simp [sentMessages, ih]

theorem sentMessages_sends (f : Nat → ByteSlice) (l : List Nat) :
    sentMessages (l.map (fun j => FeederOp.send (f j))) = l.map f := by
  induction l with
  | nil => rfl
  | cons x xs ih => simp [sentMessages, ih]

/-- When every send completes (workers are receiving, or the target count fits in the
buffer of a queue nobody receives from) and with at least `total - i` iterations of
fuel, the feeding loop finishes, having appended one send per remaining counter value,
each carrying the next creator output. -/
theorem feedLoop_spec {κ : Type} (mc : MsgCreator κ) (s0 : κ) (total cap : Nat)
    (receivers : Bool) (ht : total < 2 ^ 64) :
    ∀ (fuel i queued : Nat) (acc : List FeederOp), i ≤ total → total - i ≤ fuel →
      (receivers = true ∨ (queued = i ∧ total ≤ cap)) →
      feedLoop mc total receivers cap fuel i queued (creatorState mc s0 i) acc
        = RunOutcome.finished (creatorState mc s0 total)
            (acc ++ (List.range' i (total - i)).map
              (fun j => FeederOp.send (creatorOutput mc s0 j))) := by
  intro fuel
  induction fuel with
  | zero =>
    intro i queued acc hi hf _
    have h : i = total := by omega
    subst h
    simp [feedLoop]
  | succ fuel ih =>
    intro i queued acc hi hf hq
    by_cases hlt : i < total
    · have hq1 : receivers = true ∨ (queued + 1 = i + 1 ∧ total ≤ cap) := by
        cases hq with
        | inl h => exact Or.inl h
        | inr h => exact Or.inr ⟨by omega, h.2⟩
      have hfree : (!receivers && decide (cap ≤ queued)) = false := by
        cases hq with
        | inl h => simp [h]
        | inr h =>
          have hn : ¬ (cap ≤ queued) := by omega
          simp [hn]
      have hstep := ih (i + 1) (queued + 1) (acc ++ [FeederOp.send (creatorOutput mc s0 i)])
        (by omega) (by omega) hq1
      have hsub : total - i = (total - (i + 1)) + 1 := by omega
      simp only [feedLoop, if_pos hlt, incr64_of_lt hlt ht, hfree, Bool.false_eq_true,
        if_false]
      rw [hsub, List.range'_succ]
      simp only [creatorState, creatorOutput] at hstep ⊢
      rw [hstep]
      simp
    · have h : i = total := by omega
      subst h
      simp [feedLoop]

/-- The operations of `Run` in closed form, when the wait group accepts `Concurrency`
and every send completes: the three start-up operations, one send per creator call,
the close and the final log line. -/
theorem Run_eq {P κ : Type} (p : Producer P κ) (s : κ)
    (ht : p.config.TotalMessages < 2 ^ 64) (hw : 0 ≤ wgCounter p.config.Concurrency)
    (hr : 0 < p.config.Concurrency ∨ p.config.TotalMessages ≤ p.messagesCap) :
    Run p s = RunOutcome.finished (creatorState p.msgCreator s p.config.TotalMessages)
      ([FeederOp.goRunProducers, FeederOp.wgAdd p.config.Concurrency,
        FeederOp.debugf "started producing to chan...."]
      ++ (List.range p.config.TotalMessages).map
          (fun j => FeederOp.send (creatorOutput p.msgCreator s j))
      ++ [FeederOp.close, FeederOp.debugf "produced all messages."]) := by
  have hq : decide (0 < p.config.Concurrency) = true
      ∨ ((0 : Nat) = 0 ∧ p.config.TotalMessages ≤ p.messagesCap) := by
    cases hr with
    | inl h => exact Or.inl (by simpa using h)
    | inr h => exact Or.inr ⟨rfl, h⟩
  have h := feedLoop_spec p.msgCreator s p.config.TotalMessages p.messagesCap
    (decide (0 < p.config.Concurrency)) ht p.config.TotalMessages 0 0
    [FeederOp.goRunProducers, FeederOp.wgAdd p.config.Concurrency,
      FeederOp.debugf "started producing to chan...."] (Nat.zero_le _) (by omega) hq
  simp only [creatorState, Nat.sub_zero] at h
  have hneg : ¬ (wgCounter p.config.Concurrency < 0) := by omega
  simp only [Run, if_neg hneg, h, List.range_eq_range']

/-- C1 as claimed fails: `producer.New` builds a producer from a configuration with
`Concurrency = -1` (a reachable client), and `Run` on it panics in `wg.Add` before any
creator call, so it neither enqueues the 3 target messages nor closes the queue. -/
theorem C1_negative_concurrency_enqueues_nothing :
    New reachableBroker (sampleConfig 3 (-1)) countingCreator
        = (some (sampleProducer 3 (-1)), none)
      ∧ Run (sampleProducer 3 (-1)) 0
          = RunOutcome.panicked [FeederOp.goRunProducers, FeederOp.wgAdd (-1)]
      ∧ ¬ ∃ s1 ops, Run (sampleProducer 3 (-1)) 0 = RunOutcome.finished s1 ops
          ∧ queueOps ops
              = (List.range 3).map (fun i => FeederOp.send (creatorOutput countingCreator 0 i))
                ++ [FeederOp.close] := by
  have heval : Run (sampleProducer 3 (-1)) 0
      = RunOutcome.panicked [FeederOp.goRunProducers, FeederOp.wgAdd (-1)] := by decide
  refine ⟨rfl, heval, ?_⟩
  rintro ⟨s1, ops, hrun, _⟩
  rw [heval] at hrun
  cases hrun

/-- C1 amended: for every target count `n` (a `uint64`) and every message creator, on a
producer whose `Concurrency` the wait group accepts (the counter after
`wg.Add(Concurrency)` is not negative, as it is for `0 ≤ Concurrency < 2^31`) and
which has workers (`Concurrency > 0`) or a target count within the capacity of the
queue, `Run` returns, and its operations on the queue are exactly `n` sends, the
`i`-th carrying the bytes returned by the `i`-th creator call, followed by one close
and nothing else. -/
theorem C1_run_enqueues_target_then_closes {P κ : Type} (p : Producer P κ) (s : κ)
    (ht : p.config.TotalMessages < 2 ^ 64) (hw : 0 ≤ wgCounter p.config.Concurrency)
    (hr : 0 < p.config.Concurrency ∨ p.config.TotalMessages ≤ p.messagesCap) :
    ∃ s1 ops, Run p s = RunOutcome.finished s1 ops
      ∧ s1 = creatorState p.msgCreator s p.config.TotalMessages
      ∧ queueOps ops
          = (List.range p.config.TotalMessages).map
              (fun i => FeederOp.send (creatorOutput p.msgCreator s i))
            ++ [FeederOp.close]
      ∧ (sentMessages ops).length = p.config.TotalMessages := by
  refine ⟨_, _, Run_eq p s ht hw hr, rfl, ?_, ?_⟩
  · simp only [queueOps_append, queueOps_sends]
    simp [queueOps]
  · simp only [sentMessages_append, sentMessages_sends]
    simp [sentMessages]

/-- Instance of the amended C1 at target count 3, concurrency 4, with the counting
creator. -/
theorem C1_run_enqueues_target_then_closes_witness :
    (sampleProducer 3 4).config.TotalMessages < 2 ^ 64
    ∧ 0 ≤ wgCounter (sampleProducer 3 4).config.Concurrency
    ∧ (0 < (sampleProducer 3 4).config.Concurrency
        ∨ (sampleProducer 3 4).config.TotalMessages ≤ (sampleProducer 3 4).messagesCap)
    ∧ ∃ s1 ops, Run (sampleProducer 3 4) 0 = RunOutcome.finished s1 ops
      ∧ s1 = creatorState (sampleProducer 3 4).msgCreator 0
              (sampleProducer 3 4).config.TotalMessages
      ∧ queueOps ops
          = (List.range (sampleProducer 3 4).config.TotalMessages).map
              (fun i => FeederOp.send (creatorOutput (sampleProducer 3 4).msgCreator 0 i))
            ++ [FeederOp.close]
      ∧ (sentMessages ops).length = (sampleProducer 3 4).config.TotalMessages :=
  ⟨by decide, by decide, by decide,
    C1_run_enqueues_target_then_closes (sampleProducer 3 4) 0 (by decide) (by decide)
      (by decide)⟩

/-- Evaluation of `Run` at target count 3, concurrency 4. -/
theorem Run_sample :
    Run (sampleProducer 3 4) 0
      = RunOutcome.finished 3 [FeederOp.goRunProducers, FeederOp.wgAdd 4,
          FeederOp.debugf "started producing to chan....",
          FeederOp.send [0], FeederOp.send [1], FeederOp.send [2],
          FeederOp.close, FeederOp.debugf "produced all messages."] := by
  decide

/-- Evaluation of `Run` with a negative concurrency: the wait group panics before
anything is enqueued. -/
theorem Run_negative_concurrency :
    Run (sampleProducer 2 (-3)) 0
      = RunOutcome.panicked [FeederOp.goRunProducers, FeederOp.wgAdd (-3)] := by
  decide

/-- Evaluation of `Run` with concurrency `2^31`: the `int32` counter of the wait group
goes negative and `Add` panics. -/
theorem Run_concurrency_overflow :
    wgCounter 2147483648 = -2147483648
      ∧ Run (sampleProducer 2 2147483648) 0
          = RunOutcome.panicked [FeederOp.goRunProducers, FeederOp.wgAdd 2147483648] := by
  decide

/-- Evaluation of `Run` with no worker and a queue of capacity 2: the third send finds
the buffer full and the queue is never closed. -/
theorem Run_zero_concurrency :
    Run ({ sampleProducer 3 0 with messagesCap := 2 } : Producer Unit Nat) 0
      = RunOutcome.blocked 3 [FeederOp.goRunProducers, FeederOp.wgAdd 0,
          FeederOp.debugf "started producing to chan....",
          FeederOp.send [0], FeederOp.send [1]] := by
  decide

/-- Evaluation of `Run` with no worker and a target count within the capacity of the
queue: all sends complete and the queue is closed. -/
theorem Run_zero_concurrency_small_target :
    Run (sampleProducer 2 0) 0
      = RunOutcome.finished 2 [FeederOp.goRunProducers, FeederOp.wgAdd 0,
          FeederOp.debugf "started producing to chan....",
          FeederOp.send [0], FeederOp.send [1],
          FeederOp.close, FeederOp.debugf "produced all messages."] := by
  decide

/-- C6 fails on the code: `Run` in `producer.go` takes no context and `Producer` has no
field holding one, although `main.go` builds the context and hands it to `Run`.
With target count 2 and one worker, whatever the point `k < 2` at which the signal
fires (even before the first creator call, `k = 0`), `Run` enqueues both messages
before it closes the queue: more than `k`, and not fewer than the target. -/
theorem C6_run_ignores_cancellation :
    Run (sampleProducer 2 1) 0
        = RunOutcome.finished 2 [FeederOp.goRunProducers, FeederOp.wgAdd 1,
            FeederOp.debugf "started producing to chan....",
            FeederOp.send [0], FeederOp.send [1],
            FeederOp.close, FeederOp.debugf "produced all messages."]
      ∧ (sentMessages [FeederOp.goRunProducers, FeederOp.wgAdd 1,
            FeederOp.debugf "started producing to chan....",
            FeederOp.send [0], FeederOp.send [1],
            FeederOp.close, FeederOp.debugf "produced all messages."]).length = 2
      ∧ ¬ ∃ k : Nat, k < 2 ∧ ∃ s1 ops, Run (sampleProducer 2 1) 0 = RunOutcome.finished s1 ops
          ∧ (sentMessages ops).length ≤ k := by
  have heval : Run (sampleProducer 2 1) 0
      = RunOutcome.finished 2 [FeederOp.goRunProducers, FeederOp.wgAdd 1,
          FeederOp.debugf "started producing to chan....",
          FeederOp.send [0], FeederOp.send [1],
          FeederOp.close, FeederOp.debugf "produced all messages."] := by decide
  refine ⟨heval, by decide, ?_⟩
  rintro ⟨k, hk, s1, ops, hrun, hle⟩
  rw [heval] at hrun
  cases hrun
  simp [sentMessages] at hle
  omega

theorem produceCalls_append (xs ys : List WorkerOp) :
    produceCalls (xs ++ ys) = produceCalls xs ++ produceCalls ys := by
  induction xs with
  | nil => rfl
  | cons x xs ih => cases x <;> simp [produceCalls, ih]

/-- The `Produce` calls of the worker loop are one per message, in order. -/
theorem workerLoop_calls {β : Type} (client : KafkaClient β) (config : ProducerConfig) :
    ∀ (msgs : List ByteSlice) (b : β),
      produceCalls (workerLoop client config msgs b).2
        = msgs.map (fun m =>
            ({ TopicPartition := { Topic := some config.Topic, Partition := PartitionAny,
                                   Offset := 0, Error := none },
               Value := m } : KafkaMessage)) := by
  intro msgs
  induction msgs with
  | nil => intro b; rfl
  | cons m rest ih =>
    intro b
    simp only [workerLoop, List.map_cons]
    cases h : (client.Produce b _).1 <;>
      simp [produceCalls, produceCalls_append, ih]

/-- The worker loop itself never signals the wait group. -/
theorem workerLoop_no_done {β : Type} (client : KafkaClient β) (config : ProducerConfig) :
    ∀ (msgs : List ByteSlice) (b : β), WorkerOp.wgDone ∉ (workerLoop client config msgs b).2 := by
  intro msgs
  induction msgs with
  | nil => intro b; simp [workerLoop]
  | cons m rest ih =>
    intro b
    simp only [workerLoop]
    cases h : (client.Produce b _).1 <;> simp [ih]

/-- C7: for every finite sequence of queued messages and every behaviour of the client's
`Produce` (any pattern of errors), `ProduceWorker` calls `Produce` once per message, in
queue order, with `Value` that message, the configured topic and `kafka.PartitionAny`,
and signals `wg.Done` exactly once, as its last operation. -/
theorem C7_worker_survives_submission_errors {β : Type} (client : KafkaClient β)
    (config : ProducerConfig) (msgs : List ByteSlice) (b : β) :
    produceCalls (ProduceWorker client config msgs b).2
        = msgs.map (fun m =>
            ({ TopicPartition := { Topic := some config.Topic, Partition := PartitionAny,
                                   Offset := 0, Error := none },
               Value := m } : KafkaMessage))
      ∧ ∃ pre, (ProduceWorker client config msgs b).2 = pre ++ [WorkerOp.wgDone]
          ∧ WorkerOp.wgDone ∉ pre := by
  constructor
  · simp [ProduceWorker, produceCalls_append, workerLoop_calls, produceCalls]
  · exact ⟨(workerLoop client config msgs b).2, rfl, workerLoop_no_done client config msgs b⟩

/-- Evaluation of `ProduceWorker` on three messages with a client failing every other
call: the failure is logged and the next message is still submitted. -/
theorem ProduceWorker_sample :
    (ProduceWorker flakyClient (sampleConfig 3 1) [[1], [2], [3]] 0).2
      = [WorkerOp.produce { TopicPartition := { Topic := some "kafqa", Partition := -1,
                                                 Offset := 0, Error := none }, Value := [1] },
         WorkerOp.produce { TopicPartition := { Topic := some "kafqa", Partition := -1,
                                                 Offset := 0, Error := none }, Value := [2] },
         WorkerOp.errorf "Error producing message to kafka: %v",
         WorkerOp.produce { TopicPartition := { Topic := some "kafqa", Partition := -1,
                                                 Offset := 0, Error := none }, Value := [3] },
         WorkerOp.wgDone] := by
  decide

/-- C5 as claimed fails: with `Concurrency = 0` and a broker client that can be
constructed, `producer.New` returns a producer and a nil error. -/
theorem C5_zero_concurrency_accepted :
    (New reachableBroker (sampleConfig 10 0) countingCreator).2 = none
      ∧ (New reachableBroker (sampleConfig 10 0) countingCreator).1.isSome = true
      ∧ ¬ (0 < (sampleConfig 10 0).Concurrency) := by
  decide

/-- C5 amended: `producer.New` returns an error and no producer exactly when the kafka
client cannot be constructed; otherwise it returns a producer carrying the given
configuration and a nil error, whatever the value of `Concurrency`. -/
theorem C5_new_fails_only_on_client_error {P κ : Type}
    (newKafkaProducer : List (String × String) → Except String P)
    (prodCfg : ProducerConfig) (mc : MsgCreator κ) :
    (((New newKafkaProducer prodCfg mc).1 = none ∧ (New newKafkaProducer prodCfg mc).2 ≠ none)
        ↔ (newKafkaProducer [("bootstrap.servers", prodCfg.KafkaBrokers)]).toBool = false)
      ∧ (((New newKafkaProducer prodCfg mc).1 ≠ none ∧ (New newKafkaProducer prodCfg mc).2 = none)
        ↔ (newKafkaProducer [("bootstrap.servers", prodCfg.KafkaBrokers)]).toBool = true)
      ∧ (New newKafkaProducer prodCfg mc).1.map (fun p => p.config)
          = if (newKafkaProducer [("bootstrap.servers", prodCfg.KafkaBrokers)]).toBool
            then some prodCfg else none := by
  unfold New
  cases h : newKafkaProducer [("bootstrap.servers", prodCfg.KafkaBrokers)] <;>
    simp [Except.toBool]

/-! ## Theorems: producer/handler.go -/

/-- C2 as claimed fails: for a delivery confirmation whose destination carries an
error, `handleKafkaMessage` makes no `Track` call (not exactly one) and the store stays
as it was. -/
theorem C2_failed_delivery_not_tracked :
    failedDelivery.TopicPartition.Error ≠ none
      ∧ ¬ ((trackCalls (handleKafkaMessage
              (NewHandler listStoreTrack acceptingDecoder sampleTags false) []
              failedDelivery).2).length = 1)
      ∧ (handleKafkaMessage (NewHandler listStoreTrack acceptingDecoder sampleTags false) []
              failedDelivery).1 = [] := by
  decide

/-- C2 amended: for every delivery confirmation whose destination carries an error,
`handleKafkaMessage` only logs the failed delivery at debug level: `Track` is not
called and the store is unchanged. -/
theorem C2_failed_delivery_only_logged {σ : Type} (h : Handler σ) (st : σ)
    (ev : KafkaMessage) (herr : ev.TopicPartition.Error ≠ none) :
    handleKafkaMessage h st ev = (st, [HandlerOp.debugDeliveryFailed ev.TopicPartition])
      ∧ trackCalls (handleKafkaMessage h st ev).2 = [] := by
  unfold handleKafkaMessage
  cases hE : ev.TopicPartition.Error with
  | none => exact absurd hE herr
  | some e => simp [trackCalls]

/-- Instance of the amended C2 at the sample failed delivery. -/
theorem C2_failed_delivery_only_logged_witness :
    failedDelivery.TopicPartition.Error ≠ none
      ∧ handleKafkaMessage (NewHandler listStoreTrack acceptingDecoder sampleTags false) []
            failedDelivery
          = ([], [HandlerOp.debugDeliveryFailed failedDelivery.TopicPartition])
      ∧ trackCalls (handleKafkaMessage
            (NewHandler listStoreTrack acceptingDecoder sampleTags false) []
            failedDelivery).2 = [] :=
  ⟨by decide, C2_failed_delivery_only_logged _ [] failedDelivery (by decide)⟩

/-- C3 fails on the code: for a delivery confirmation without destination error whose
payload the decoder rejects, `handleKafkaMessage` logs the decoding failure and then
still calls `Track`, with the message value returned next to the error, and the
store changes. -/
theorem C3_undecodable_payload_is_tracked :
    goodDelivery.TopicPartition.Error = none
      ∧ (rejectingDecoder goodDelivery.Value).2 ≠ none
      ∧ handleKafkaMessage (NewHandler listStoreTrack rejectingDecoder sampleTags false) []
            goodDelivery
          = ([{ Message := Message.zero, TopicPartition := goodDelivery.TopicPartition }],
             [HandlerOp.errorDecodingFailed goodDelivery.TopicPartition,
              HandlerOp.track
                { Message := Message.zero, TopicPartition := goodDelivery.TopicPartition }]) := by
  decide

theorem statsCalls_append (xs ys : List HandlerOp) :
    statsCalls (xs ++ ys) = statsCalls xs ++ statsCalls ys := by
  induction xs with
  | nil => rfl
  | cons x xs ih => cases x <;> simp [statsCalls, ih]

theorem collaboratorCalls_append (xs ys : List HandlerOp) :
    collaboratorCalls (xs ++ ys) = collaboratorCalls xs ++ collaboratorCalls ys := by
  induction xs with
  | nil => rfl
  | cons x xs ih => cases x <;> simp [collaboratorCalls, ih]

/-- Handling a confirmation makes no call on the stats handler. -/
theorem statsCalls_handleKafkaMessage {σ : Type} (h : Handler σ) (st : σ) (ev : KafkaMessage) :
    statsCalls (handleKafkaMessage h st ev).2 = [] := by
  unfold handleKafkaMessage
  cases ev.TopicPartition.Error with
  | some e => simp [statsCalls]
  | none =>
    simp only []
    split <;> split <;> simp [statsCalls]

/-- Handling a confirmation never signals the wait group. -/
theorem handleKafkaMessage_no_done {σ : Type} (h : Handler σ) (st : σ) (ev : KafkaMessage) :
    HandlerOp.wgDone ∉ (handleKafkaMessage h st ev).2 := by
  unfold handleKafkaMessage
  cases ev.TopicPartition.Error with
  | some e => simp
  | none =>
    simp only []
    split <;> split <;> simp

/-- The stats calls of the loop under a given value of the feature flag. -/
theorem statsCalls_handleLoop {σ : Type} (h : Handler σ) (str : Event → String) :
    ∀ (events : List Event) (st : σ),
      statsCalls (handleLoop h str events st).2
        = if h.librdStatsEnabled then statsStrings str events else [] := by
  intro events
  induction events with
  | nil => intro st; simp [handleLoop, statsCalls, statsStrings]
  | cons e rest ih =>
    intro st
    simp only [handleLoop, statsCalls_append, ih]
    cases e with
    | stats j =>
      cases hflag : h.librdStatsEnabled <;> simp [handleEvent, hflag, statsCalls, statsStrings]
    | message ev =>
      cases hflag : h.librdStatsEnabled <;>
        simp [handleEvent, statsCalls_handleKafkaMessage, statsStrings]
    | other d =>
      cases hflag : h.librdStatsEnabled <;> simp [handleEvent, statsCalls, statsStrings]

/-- C8: for every event stream, a handler built by `NewHandler` with
`librdStatsEnabled = false` makes no `HandleStats` call, and one built with
`librdStatsEnabled = true` makes exactly one `HandleStats` call per statistics event,
in stream order, passing the string form of that event. -/
theorem C8_stats_handling_feature_flagged {σ : Type} (Track : σ → Trace → GoError × σ)
    (FromBytes : ByteSlice → Message × GoError) (librdTags : LibrdTags)
    (str : Event → String) (events : List Event) (st : σ) :
    statsCalls (Handle (NewHandler Track FromBytes librdTags false) str events st).2 = []
      ∧ statsCalls (Handle (NewHandler Track FromBytes librdTags true) str events st).2
          = statsStrings str events := by
  constructor <;>
    simp [Handle, statsCalls_append, statsCalls_handleLoop, NewHandler, statsCalls]

/-- Evaluation of `Handle` on a mixed stream, statistics enabled. -/
theorem Handle_sample :
    Handle (NewHandler listStoreTrack acceptingDecoder sampleTags true) sampleString
        [Event.stats "a", Event.other "kafka.Error", Event.message failedDelivery,
         Event.stats "b"] []
      = ([], [HandlerOp.handleStats "a",
              HandlerOp.debugUnknownEvent (Event.other "kafka.Error"),
              HandlerOp.debugDeliveryFailed failedDelivery.TopicPartition,
              HandlerOp.handleStats "b", HandlerOp.wgDone]) := by
  decide

/-- The loop on a concatenated stream is the loop on the first part followed by the
loop on the second part from the store state the first part leaves. -/
theorem handleLoop_append {σ : Type} (h : Handler σ) (str : Event → String) :
    ∀ (xs ys : List Event) (st : σ),
      handleLoop h str (xs ++ ys) st
        = ((handleLoop h str ys (handleLoop h str xs st).1).1,
           (handleLoop h str xs st).2 ++ (handleLoop h str ys (handleLoop h str xs st).1).2) := by
  intro xs
  induction xs with
  | nil => intro ys st; simp [handleLoop]
  | cons x xs ih => intro ys st; simp [handleLoop, ih]

/-- No iteration of the loop signals the wait group. -/
theorem handleLoop_no_done {σ : Type} (h : Handler σ) (str : Event → String) :
    ∀ (events : List Event) (st : σ), HandlerOp.wgDone ∉ (handleLoop h str events st).2 := by
  intro events
  induction events with
  | nil => intro st; simp [handleLoop]
  | cons e rest ih =>
    intro st
    simp only [handleLoop, List.mem_append, not_or]
    refine ⟨?_, ih _⟩
    cases e with
    | stats j => cases hflag : h.librdStatsEnabled <;> simp [handleEvent, hflag]
    | message ev => exact handleKafkaMessage_no_done h st ev
    | other d => simp [handleEvent]

/-- Removing the unknown events changes neither the final store state nor the calls
made on the store and on the stats handler. -/
theorem handleLoop_filter {σ : Type} (h : Handler σ) (str : Event → String) :
    ∀ (events : List Event) (st : σ),
      (handleLoop h str (events.filter isKnownEvent) st).1 = (handleLoop h str events st).1
        ∧ collaboratorCalls (handleLoop h str (events.filter isKnownEvent) st).2
            = collaboratorCalls (handleLoop h str events st).2 := by
  intro events
  induction events with
  | nil => intro st; simp
  | cons e rest ih =>
    intro st
    cases e with
    | stats j =>
      simp only [List.filter, isKnownEvent, handleLoop, collaboratorCalls_append]
      exact ⟨(ih _).1, by rw [(ih _).2]⟩
    | message ev =>
      simp only [List.filter, isKnownEvent, handleLoop, collaboratorCalls_append]
      exact ⟨(ih _).1, by rw [(ih _).2]⟩
    | other d =>
      simp only [List.filter, isKnownEvent, handleLoop, collaboratorCalls_append, handleEvent,
        collaboratorCalls, List.nil_append]
      exact ih st

/-- C9: for every finite event stream, the calls `Handle` makes on the trace store and
on the stats handler (and the final store state) are those it makes on the stream
with every event that is neither a confirmation nor a statistics event removed; every
event of the stream is processed, in its turn, before the single `wg.Done`, which is
the last operation. -/
theorem C9_unknown_events_dropped {σ : Type} (h : Handler σ) (str : Event → String)
    (events : List Event) (st : σ) :
    collaboratorCalls (Handle h str events st).2
        = collaboratorCalls (Handle h str (events.filter isKnownEvent) st).2
      ∧ (Handle h str events st).1 = (Handle h str (events.filter isKnownEvent) st).1
      ∧ ∃ body, (Handle h str events st).2 = body ++ [HandlerOp.wgDone]
          ∧ HandlerOp.wgDone ∉ body
          ∧ ∀ pre e post, events = pre ++ e :: post →
              ∃ before after,
                body = before ++ (handleEvent h str (handleLoop h str pre st).1 e).2 ++ after := by
  refine ⟨?_, ?_, (handleLoop h str events st).2, rfl, handleLoop_no_done h str events st, ?_⟩
  · simp only [Handle, collaboratorCalls_append, (handleLoop_filter h str events st).2]
  · simp only [Handle, (handleLoop_filter h str events st).1]
  · intro pre e post hsplit
    subst hsplit
    refine ⟨(handleLoop h str pre st).2,
      (handleLoop h str post (handleEvent h str (handleLoop h str pre st).1 e).1).2, ?_⟩
    rw [handleLoop_append]
    simp [handleLoop]

/-! ## Theorems: reporter/librdkafka.go -/

/-- Evaluation of `HandleStats` when both maps are visited in reverse literal order. -/
theorem HandleStats_sample :
    HandleStats NewlibrdKafkaStat List.reverse List.reverse "{}" "kafqa"
      = [StatsDispatch.BrokersStats ["tx", "rx"] "{}" "counter" "kafqa",
         StatsDispatch.TopLevelStats ["tx", "rx", "txmsgs", "rxmsgs"] "{}" "counter" "kafqa",
         StatsDispatch.BrokersStats ["outbuf_msg_cnt", "int_latency.p99", "int_latency.avg",
           "outbuf_latency.p99", "outbuf_latency.avg", "throttle.avg", "throttle.p99",
           "rtt.avg", "rtt.p99"] "{}" "gauge" "kafqa",
         StatsDispatch.TopLevelStats ["msg_cnt", "msg_size"] "{}" "gauge" "kafqa"] := by
  decide

/-- C10: for every stats JSON and topic and every order in which `range` visits the two
maps, `HandleStats` on the handler built by `NewlibrdKafkaStat` makes exactly four
dispatches, the same four up to order: the top-level and broker counters tagged
`counter`, the top-level and broker gauges tagged `gauge`, each with the JSON and the
topic unchanged; and `GetStats` with a scope other than `top-level` and `brokers`
calls neither `TopLevelStats` nor `BrokersStats`. -/
theorem C10_stats_scope_dispatch (rangeCounters rangeGauges : StatNames → StatNames)
    (statJSON topic : String)
    (hC : (rangeCounters defaultCounters).Perm defaultCounters)
    (hG : (rangeGauges defaultGauges).Perm defaultGauges) :
    (HandleStats NewlibrdKafkaStat rangeCounters rangeGauges statJSON topic).length = 4
      ∧ (HandleStats NewlibrdKafkaStat rangeCounters rangeGauges statJSON topic).Perm
          [StatsDispatch.TopLevelStats ["tx", "rx", "txmsgs", "rxmsgs"] statJSON "counter" topic,
           StatsDispatch.BrokersStats ["tx", "rx"] statJSON "counter" topic,
           StatsDispatch.TopLevelStats ["msg_cnt", "msg_size"] statJSON "gauge" topic,
           StatsDispatch.BrokersStats ["outbuf_msg_cnt", "int_latency.p99", "int_latency.avg",
             "outbuf_latency.p99", "outbuf_latency.avg", "throttle.avg", "throttle.p99",
             "rtt.avg", "rtt.p99"] statJSON "gauge" topic]
      ∧ ∀ (stats : List String) (statsJSON level statType topic1 : String),
          level ≠ "top-level" → level ≠ "brokers" →
            GetStats stats statsJSON level statType topic1 = [] := by
  have hperm : (HandleStats NewlibrdKafkaStat rangeCounters rangeGauges statJSON topic).Perm
      (defaultCounters.flatMap (fun kv => GetStats kv.2 statJSON kv.1 "counter" topic)
        ++ defaultGauges.flatMap (fun kv => GetStats kv.2 statJSON kv.1 "gauge" topic)) :=
    List.Perm.append (List.Perm.flatMap_right _ hC) (List.Perm.flatMap_right _ hG)
  have heval : defaultCounters.flatMap (fun kv => GetStats kv.2 statJSON kv.1 "counter" topic)
        ++ defaultGauges.flatMap (fun kv => GetStats kv.2 statJSON kv.1 "gauge" topic)
      = [StatsDispatch.TopLevelStats ["tx", "rx", "txmsgs", "rxmsgs"] statJSON "counter" topic,
         StatsDispatch.BrokersStats ["tx", "rx"] statJSON "counter" topic,
         StatsDispatch.TopLevelStats ["msg_cnt", "msg_size"] statJSON "gauge" topic,
         StatsDispatch.BrokersStats ["outbuf_msg_cnt", "int_latency.p99", "int_latency.avg",
           "outbuf_latency.p99", "outbuf_latency.avg", "throttle.avg", "throttle.p99",
           "rtt.avg", "rtt.p99"] statJSON "gauge" topic] := by
    simp [defaultCounters, defaultGauges, GetStats]
  rw [heval] at hperm
  refine ⟨?_, hperm, ?_⟩
  · rw [hperm.length_eq]
    rfl
  · intro stats statsJSON level statType topic1 h1 h2
    simp [GetStats, h1, h2]

/-- Instance of C10 with both maps visited in reverse literal order. -/
theorem C10_stats_scope_dispatch_witness :
    (List.reverse defaultCounters).Perm defaultCounters
      ∧ (List.reverse defaultGauges).Perm defaultGauges
      ∧ (HandleStats NewlibrdKafkaStat List.reverse List.reverse "{}" "kafqa").length = 4
      ∧ (HandleStats NewlibrdKafkaStat List.reverse List.reverse "{}" "kafqa").Perm
          [StatsDispatch.TopLevelStats ["tx", "rx", "txmsgs", "rxmsgs"] "{}" "counter" "kafqa",
           StatsDispatch.BrokersStats ["tx", "rx"] "{}" "counter" "kafqa",
           StatsDispatch.TopLevelStats ["msg_cnt", "msg_size"] "{}" "gauge" "kafqa",
           StatsDispatch.BrokersStats ["outbuf_msg_cnt", "int_latency.p99", "int_latency.avg",
             "outbuf_latency.p99", "outbuf_latency.avg", "throttle.avg", "throttle.p99",
             "rtt.avg", "rtt.p99"] "{}" "gauge" "kafqa"]
      ∧ ∀ (stats : List String) (statsJSON level statType topic1 : String),
          level ≠ "top-level" → level ≠ "brokers" →
            GetStats stats statsJSON level statType topic1 = [] :=
  ⟨List.reverse_perm _, List.reverse_perm _,
    C10_stats_scope_dispatch List.reverse List.reverse "{}" "kafqa"
      (List.reverse_perm _) (List.reverse_perm _)⟩

/-! ## Theorems: serde codec -/

theorem fromBigEndian_snoc (xs : ByteSlice) (b : Byte) :
    fromBigEndian (xs ++ [b]) = fromBigEndian xs * 256 + b.val := by
  simp [fromBigEndian, List.foldl_append]

theorem fromBigEndian_bigEndian : ∀ (k n : Nat), n < 256 ^ k →
    fromBigEndian (bigEndian k n) = n := by
  intro k
  induction k with
  | zero =>
    intro n hn
    have h0 : n = 0 := by simpa using hn
    subst h0
    rfl
  | succ k ih =>
    intro n hn
    by_cases h0 : n = 0
    · subst h0
      simp [bigEndian, fromBigEndian]
    · have hdiv : n / 256 < 256 ^ k := by
        apply Nat.div_lt_of_lt_mul
        rw [pow_succ] at hn
        omega
      simp only [bigEndian, if_neg h0, fromBigEndian_snoc, ih _ hdiv]
      omega

theorem bigEndian_length_le : ∀ (k n : Nat), (bigEndian k n).length ≤ k := by
  intro k
  induction k with
  | zero => intro n; simp [bigEndian]
  | succ k ih =>
    intro n
    by_cases h0 : n = 0
    · simp [bigEndian, h0]
    · simp only [bigEndian, if_neg h0, List.length_append, List.length_singleton]
      have := ih (n / 256)
      omega

theorem bigEndian_length_pos (k n : Nat) (hn : 0 < n) : 0 < (bigEndian (k + 1) n).length := by
  have h0 : n ≠ 0 := by omega
  simp [bigEndian, h0]

theorem encodeUint_length_le (x : Nat) : (encodeUint x).length ≤ 9 := by
  unfold encodeUint
  split
  · simp
  · have := bigEndian_length_le 8 x
    simp only [List.length_cons]
    omega

theorem decodeUint_encodeUint (x : Nat) (rest : ByteSlice) (hx : x < 2 ^ 64) :
    decodeUint (encodeUint x ++ rest) = some (x, rest) := by
  unfold encodeUint
  by_cases hs : x ≤ 127
  · have hm : x % 256 = x := Nat.mod_eq_of_lt (by omega)
    simp [hs, decodeUint, hm]
  · have hle := bigEndian_length_le 8 x
    have hpos : 0 < (bigEndian 8 x).length := bigEndian_length_pos 7 x (by omega)
    have hval : (256 - (bigEndian 8 x).length) % 256 = 256 - (bigEndian 8 x).length :=
      Nat.mod_eq_of_lt (by omega)
    have hcnt : 256 - (256 - (bigEndian 8 x).length) = (bigEndian 8 x).length := by omega
    have hbig : ¬ (256 - (bigEndian 8 x).length ≤ 127) := by omega
    have hfrom : fromBigEndian (bigEndian 8 x) = x :=
      fromBigEndian_bigEndian 8 x (by norm_num at hx ⊢; omega)
    simp only [if_neg hs, List.cons_append, decodeUint, hval, hcnt, if_neg hbig]
    have h8 : ¬ (8 < (bigEndian 8 x).length) := by omega
    simp [h8, hfrom]

theorem decodeInt_encodeInt (i : Int) (rest : ByteSlice)
    (hlo : -(2 : Int) ^ 63 ≤ i) (hhi : i < (2 : Int) ^ 63) :
    decodeInt (encodeInt i ++ rest) = some (i, rest) := by
  unfold decodeInt encodeInt
  by_cases hneg : i < 0
  · have hx : (2 * (-i - 1) + 1).toNat < 2 ^ 64 := by omega
    rw [if_pos hneg, decodeUint_encodeUint _ _ hx]
    have hodd : (2 * (-i - 1) + 1).toNat % 2 = 1 := by omega
    simp only [hodd, if_true]
    congr 2
    omega
  · have hx : (2 * i).toNat < 2 ^ 64 := by omega
    rw [if_neg hneg, decodeUint_encodeUint _ _ hx]
    have heven : ¬ ((2 * i).toNat % 2 = 1) := by omega
    simp only [heven, if_false]
    congr 2
    omega

theorem decodeByteSlice_encodeByteSlice (bs rest : ByteSlice) (hlen : bs.length < 2 ^ 64) :
    decodeByteSlice (encodeByteSlice bs ++ rest) = some (bs, rest) := by
  unfold decodeByteSlice encodeByteSlice
  rw [List.append_assoc, decodeUint_encodeUint _ _ hlen]
  simp

/-- Reading the field `Sequence`, sent at distance `d` from the last field read. -/
theorem decodeFields_sequence (fuel : Nat) (last : Int) (msg : Message) (d v : Nat)
    (rest : ByteSlice) (hd0 : d ≠ 0) (hd : d < 2 ^ 64) (hf : last + (d : Int) = 0)
    (hv : v < 2 ^ 64) :
    decodeFields (fuel + 1) last msg (encodeUint d ++ (encodeUint v ++ rest))
      = decodeFields fuel 0 { msg with Sequence := v } rest := by
  simp only [decodeFields, decodeUint_encodeUint _ _ hd, hd0, if_false, hf, if_true,
    decodeUint_encodeUint _ _ hv]

/-- Reading the field `ID`, sent at distance `d` from the last field read. -/
theorem decodeFields_id (fuel : Nat) (last : Int) (msg : Message) (d : Nat)
    (v rest : ByteSlice) (hd0 : d ≠ 0) (hd : d < 2 ^ 64) (hf : last + (d : Int) = 1)
    (hv : v.length < 2 ^ 64) :
    decodeFields (fuel + 1) last msg (encodeUint d ++ (encodeByteSlice v ++ rest))
      = decodeFields fuel 1 { msg with ID := v } rest := by
  simp only [decodeFields, decodeUint_encodeUint _ _ hd, hd0, if_false, hf,
    decodeByteSlice_encodeByteSlice _ _ hv]
  simp

/-- Reading the field `Payload`, sent at distance `d` from the last field read. -/
theorem decodeFields_payload (fuel : Nat) (last : Int) (msg : Message) (d : Nat)
    (v rest : ByteSlice) (hd0 : d ≠ 0) (hd : d < 2 ^ 64) (hf : last + (d : Int) = 2)
    (hv : v.length < 2 ^ 64) :
    decodeFields (fuel + 1) last msg (encodeUint d ++ (encodeByteSlice v ++ rest))
      = decodeFields fuel 2 { msg with Payload := v } rest := by
  simp only [decodeFields, decodeUint_encodeUint _ _ hd, hd0, if_false, hf,
    decodeByteSlice_encodeByteSlice _ _ hv]
  simp

/-- Reading the field `ProducedAt`, sent at distance `d` from the last field read. -/
theorem decodeFields_producedAt (fuel : Nat) (last : Int) (msg : Message) (d : Nat) (v : Int)
    (rest : ByteSlice) (hd0 : d ≠ 0) (hd : d < 2 ^ 64) (hf : last + (d : Int) = 3)
    (hlo : -(2 : Int) ^ 63 ≤ v) (hhi : v < (2 : Int) ^ 63) :
    decodeFields (fuel + 1) last msg (encodeUint d ++ (encodeInt v ++ rest))
      = decodeFields fuel 3 { msg with ProducedAt := v } rest := by
  simp only [decodeFields, decodeUint_encodeUint _ _ hd, hd0, if_false, hf,
    decodeInt_encodeInt _ _ hlo hhi]
  simp

/-- Reading the terminating zero ends the struct. -/
theorem decodeFields_end (fuel : Nat) (last : Int) (msg : Message) :
    decodeFields (fuel + 1) last msg (encodeUint 0) = some msg := by
  simp [decodeFields, encodeUint, decodeUint]

/-- The struct decoder reads back what the struct encoder wrote. -/
theorem decodeFields_encodeStruct (m : Message) (hm : m.WellTyped) :
    decodeFields 5 (-1) Message.zero (encodeStruct m) = some m := by
  obtain ⟨hs, hi, hp, hlo, hhi⟩ := hm
  obtain ⟨seq, id, payload, ts⟩ := m
  simp only at hs hi hp hlo hhi
  have hi64 : id.length < 2 ^ 64 := by omega
  have hp64 : payload.length < 2 ^ 64 := by omega
  have hs' := hs
  have hi' := hi64
  have hp' := hp64
  have hlo' := hlo
  have hhi' := hhi
  norm_num at hs' hi' hp' hlo' hhi'
  by_cases c0 : seq = 0 <;> by_cases c1 : id = [] <;> by_cases c2 : payload = [] <;>
    by_cases c3 : ts = 0
  all_goals
    simp [encodeStruct, sendField, c0, c1, c2, c3, Message.zero, decodeFields_sequence,
      decodeFields_id, decodeFields_payload, decodeFields_producedAt, decodeFields_end,
      hs, hi64, hp64, hlo, hhi, hs', hi', hp', hlo', hhi']

theorem sendField_length_le (st : Int × ByteSlice) (fieldnum : Int) (isZero : Bool)
    (value : ByteSlice) :
    (sendField st fieldnum isZero value).2.length ≤ st.2.length + 9 + value.length := by
  unfold sendField
  cases isZero with
  | true => simp; omega
  | false =>
    have := encodeUint_length_le (fieldnum - st.1).toNat
    simp only [Bool.false_eq_true, if_false, List.length_append]
    omega

/-- The struct encoding is at most 81 octets longer than `ID` and `Payload` together. -/
theorem encodeStruct_length_le (m : Message) :
    (encodeStruct m).length ≤ m.ID.length + m.Payload.length + 81 := by
  unfold encodeStruct
  simp only [List.length_append]
  have h1 := sendField_length_le (-1, []) 0 (decide (m.Sequence = 0)) (encodeUint m.Sequence)
  have h2 := sendField_length_le
    (sendField (-1, []) 0 (decide (m.Sequence = 0)) (encodeUint m.Sequence)) 1 m.ID.isEmpty
    (encodeByteSlice m.ID)
  have h3 := sendField_length_le
    (sendField (sendField (-1, []) 0 (decide (m.Sequence = 0)) (encodeUint m.Sequence)) 1
      m.ID.isEmpty (encodeByteSlice m.ID)) 2 m.Payload.isEmpty (encodeByteSlice m.Payload)
  have h4 := sendField_length_le
    (sendField (sendField (sendField (-1, []) 0 (decide (m.Sequence = 0))
      (encodeUint m.Sequence)) 1 m.ID.isEmpty (encodeByteSlice m.ID)) 2 m.Payload.isEmpty
      (encodeByteSlice m.Payload)) 3 (decide (m.ProducedAt = 0)) (encodeInt m.ProducedAt)
  have e0 := encodeUint_length_le 0
  have e1 := encodeUint_length_le m.Sequence
  have e2 : (encodeByteSlice m.ID).length ≤ 9 + m.ID.length := by
    have := encodeUint_length_le m.ID.length
    simp only [encodeByteSlice, List.length_append]
    omega
  have e3 : (encodeByteSlice m.Payload).length ≤ 9 + m.Payload.length := by
    have := encodeUint_length_le m.Payload.length
    simp only [encodeByteSlice, List.length_append]
    omega
  have e4 : (encodeInt m.ProducedAt).length ≤ 9 := encodeUint_length_le _
  simp only [List.length_nil] at h1
  omega

/-- C4: for every message `m` holding values of its Go field types (for example one
with `Sequence` 1011), `KafqaParser.FromBytes` applied to the bytes `KafqaParser.Bytes`
produced for `m` returns `m` and a nil error. -/
theorem C4_codec_round_trip (m : Message) (hm : m.WellTyped) :
    (KafqaParser.Bytes m).2 = none
      ∧ KafqaParser.FromBytes (KafqaParser.Bytes m).1 = (m, none) := by
  refine ⟨rfl, ?_⟩
  have hlen : (encodeInt messageTypeId ++ encodeStruct m).length < 2 ^ 64 := by
    have h1 := encodeStruct_length_le m
    have h2 : (encodeInt messageTypeId).length ≤ 9 := encodeUint_length_le _
    obtain ⟨_, hi, hp, _, _⟩ := hm
    simp only [List.length_append]
    omega
  have hid : decodeInt (encodeInt messageTypeId ++ encodeStruct m)
      = some (messageTypeId, encodeStruct m) :=
    decodeInt_encodeInt _ _ (by decide) (by decide)
  simp only [KafqaParser.Bytes, KafqaParser.FromBytes, decodeUint_encodeUint _ _ hlen,
    lt_irrefl, if_false, List.take_length, hid, ne_eq, not_true_eq_false,
    decodeFields_encodeStruct m hm]

/-- Instance of C4 at the message of the codec test, `Sequence` 1011. -/
theorem C4_codec_round_trip_witness :
    Message.WellTyped { Sequence := 1011, ID := [], Payload := [], ProducedAt := 0 }
      ∧ (KafqaParser.Bytes { Sequence := 1011, ID := [], Payload := [], ProducedAt := 0 }).2
          = none
      ∧ KafqaParser.FromBytes
          (KafqaParser.Bytes { Sequence := 1011, ID := [], Payload := [], ProducedAt := 0 }).1
          = ({ Sequence := 1011, ID := [], Payload := [], ProducedAt := 0 }, none) :=
  ⟨by unfold Message.WellTyped; decide,
    C4_codec_round_trip _ (by unfold Message.WellTyped; decide)⟩

/-- Evaluation of the codec on a message with every field set. -/
theorem codec_sample :
    (KafqaParser.Bytes { Sequence := 1011, ID := [1, 2], Payload := [5, 6, 7],
                          ProducedAt := -77777777777 }).1
        = [23, 255, 130, 1, 254, 3, 243, 1, 2, 1, 2, 1, 3, 5, 6, 7, 1, 251, 36, 55, 213, 104,
           225, 0]
      ∧ KafqaParser.FromBytes [23, 255, 130, 1, 254, 3, 243, 1, 2, 1, 2, 1, 3, 5, 6, 7, 1, 251,
            36, 55, 213, 104, 225, 0]
          = ({ Sequence := 1011, ID := [1, 2], Payload := [5, 6, 7],
               ProducedAt := -77777777777 }, none)
      ∧ KafqaParser.FromBytes [23, 255, 130, 1, 254, 3]
          = (Message.zero, some "unexpected EOF") := by
  decide

end Kafqa
